import Mathlib

/-!
# Verification of the nats.deno client core (`src/nats-base-client/nats.ts`)

A shallow embedding of the `NatsConnection` class and the collaborators its
behaviour depends on.  Pure functions of the source become Lean functions;
the mutable connection object becomes an explicit state record with each
method a function of that state.  JavaScript exceptions and promise
rejections become the `Except` error channel.  Byte sequences are `List Nat`.

Collaborators that live in files of this repository that are not available
(`protocol.ts`, `headers.ts`, `nuid.ts`) are modelled from the natural
language specification; each such definition carries a doc comment that
starts with `Modelled from the spec:`.
-/

namespace NatsDeno

/-- Error codes from `error.ts` (§7 of the spec lists the stable identifiers).
Only the codes the verified operations can produce are modelled. -/
inductive ErrorCode
  | BAD_SUBJECT
  | BAD_HEADER
  | CONNECTION_CLOSED
  | CONNECTION_DRAINING
  | TIMEOUT
  deriving DecidableEq, Repr

/-- `Payload` mode from `types.ts`: how `publish` interprets a non-binary
payload argument (`this.options.payload` in `nats.ts`). -/
inductive Payload
  | STRING
  | JSON
  | BINARY
  deriving DecidableEq, Repr

/-- The JavaScript values a caller can pass as the `data` argument of
`publish`/`request`: a `Uint8Array`, a string, `undefined`, or `null`. -/
inductive JsVal
  | bytes (b : List Nat)
  | str (s : String)
  | undef
  | jsNull
  deriving DecidableEq, Repr

/-- `isUint8Array` from `util.ts`: the guard on line 89 of `nats.ts`. -/
def isUint8Array : JsVal → Bool
  | .bytes _ => true
  | _ => false

/-- JavaScript truthiness for the modelled values: `undefined`, `null` and
the empty string are falsy (used by `data = data || ""` on line 91). -/
def jsFalsy : JsVal → Bool
  | .undef => true
  | .jsNull => true
  | .str s => s = ""
  | .bytes _ => false

/-- JavaScript `v || w`. -/
def jsOr (v w : JsVal) : JsVal := if jsFalsy v then w else v

/-- JavaScript string coercion `String(v)` as applied by `TextEncoder.encode`
to a non-string argument.  In `preparePayload` the argument is always a
string already, so only the `str` case is ever reached. -/
def jsToString : JsVal → String
  | .str s => s
  | .undef => "undefined"
  | .jsNull => "null"
  | .bytes _ => ""

/-- One code point encoded to UTF-8 bytes (the encoding performed by
`new TextEncoder().encode(...)` on line 97 of `nats.ts`). -/
def utf8Char (n : Nat) : List Nat :=
  if n < 0x80 then [n]
  else if n < 0x800 then
    [0xC0 ||| (n >>> 6), 0x80 ||| (n &&& 0x3F)]
  else if n < 0x10000 then
    [0xE0 ||| (n >>> 12), 0x80 ||| ((n >>> 6) &&& 0x3F), 0x80 ||| (n &&& 0x3F)]
  else
    [0xF0 ||| (n >>> 18), 0x80 ||| ((n >>> 12) &&& 0x3F),
     0x80 ||| ((n >>> 6) &&& 0x3F), 0x80 ||| (n &&& 0x3F)]

/-- UTF-8 encoding of a string, `new TextEncoder().encode(s)`. -/
def utf8Encode (s : String) : List Nat :=
  s.toList.foldr (fun c acc => utf8Char c.toNat ++ acc) []

/-- Hex digit for JSON escapes. -/
def hexDigit (n : Nat) : Char :=
  if n < 10 then Char.ofNat (48 + n) else Char.ofNat (87 + n)

/-- JSON escaping of a single character, as performed by `JSON.stringify`
on the characters of a string. -/
def jsonEscapeChar (c : Char) : String :=
  if c = Char.ofNat 34 then "\\\""
  else if c = '\\' then "\\\\"
  else if c = Char.ofNat 10 then "\\n"
  else if c = Char.ofNat 13 then "\\r"
  else if c = Char.ofNat 9 then "\\t"
  else if c.toNat = 8 then "\\b"
  else if c.toNat = 12 then "\\f"
  else if c.toNat < 32 then
    "\\u00" ++ String.mk [hexDigit (c.toNat / 16), hexDigit (c.toNat % 16)]
  else String.mk [c]

/-- `JSON.stringify` restricted to the modelled values (line 94 of
`nats.ts`).  The `undef` and `bytes` cases are unreachable there: `undefined`
is mapped to `null` on line 93 first, and a `Uint8Array` never enters the
conversion branch. -/
def jsonStringify : JsVal → String
  | .jsNull => "null"
  | .str s => "\"" ++ String.join (s.toList.map jsonEscapeChar) ++ "\""
  | .undef => "undefined"
  | .bytes _ => ""

/-- The payload conversion inside `publish` (`nats.ts` lines 87-98): a
`Uint8Array` passes through; otherwise, outside JSON mode the falsy values
collapse to `""`, in JSON mode `undefined` becomes `null` and the value is
`JSON.stringify`-ed; the resulting string is UTF-8 encoded. -/
def preparePayload (mode : Payload) (data : JsVal) : List Nat :=
  match data with
  | .bytes b => b
  | d =>
    let d1 :=
      if mode ≠ Payload.JSON then jsOr d (.str "")
      else .str (jsonStringify (if d = JsVal.undef then JsVal.jsNull else d))
    utf8Encode (jsToString d1)

/-- A frame handed to the protocol layer by `this.protocol.publish(subject,
data, reply)` (line 100): by that point the payload is bytes only. -/
structure Frame where
  subject : String
  data : List Nat
  reply : String
  deriving DecidableEq, Repr

/-- A pending request entry of the mux registry, keyed by its token
(spec §3 "Pending request": token, deadline). -/
structure PendingReq where
  tokenId : Nat
  deadline : Nat
  deriving DecidableEq, Repr

/-- Modelled from the spec: the request-mux registry of `protocol.ts`
(`this.protocol.muxSubscriptions`, spec §4.G) together with the unique-id
generator of `nuid.ts` (spec §4.A).  The generator is modelled as a counter
handing out one fresh token id per request; `baseInbox` is the
connection-scoped inbox, already ending in the `.` separator, to which the
token is appended by plain string concatenation on line 152 of `nats.ts`. -/
structure MuxState where
  baseInbox : String
  nextTokenId : Nat
  pending : List PendingReq
  deriving DecidableEq, Repr

/-- The textual form of a token, as it appears in the reply subject. -/
def tokenStr (n : Nat) : String := Nat.repr n

/-- State of a `NatsConnection` object (`nats.ts` lines 43-51).
`draining` is the instance field of line 46; `protocolClosed` is what
`this.protocol.isClosed()` reports; `payloadMode` is
`this.options.payload`. -/
structure NatsConnection where
  protocolClosed : Bool
  draining : Bool
  payloadMode : Payload
  mux : MuxState
  deriving DecidableEq, Repr

/-- `isClosed()` (lines 185-187): delegates to `protocol.isClosed()`. -/
def NatsConnection.isClosed (c : NatsConnection) : Bool := c.protocolClosed

/-- `isDraining()` (lines 189-191): returns the `draining` field. -/
def NatsConnection.isDraining (c : NatsConnection) : Bool := c.draining

/-- Modelled from the spec: `ProtocolHandler.publish` (`protocol.ts` is not
available).  Per §4.H a connection in the DRAINING state stops accepting new
publishes, and a closed connection rejects work with `CONNECTION_CLOSED`
(§7); otherwise the frame is enqueued for the wire. -/
def protocolPublish (c : NatsConnection) (subject : String) (data : List Nat)
    (reply : String) : Except ErrorCode Frame :=
  if c.isClosed then .error .CONNECTION_CLOSED
  else if c.isDraining then .error .CONNECTION_DRAINING
  else .ok ⟨subject, data, reply⟩

/-- `publish(subject, data, reply)` (`nats.ts` lines 82-101).  The subject
argument is `Option String` so that a JavaScript `null`/`undefined` argument
(`none`) is representable; `subject = subject || ""` maps it to `""`.
The result is the frame handed to `this.protocol.publish`. -/
def NatsConnection.publish (c : NatsConnection) (subject : Option String)
    (data : JsVal) (reply : String := "") : Except ErrorCode Frame :=
  let subj := subject.getD ""
  if subj.length = 0 then .error .BAD_SUBJECT
  else protocolPublish c subj (preparePayload c.payloadMode data) reply

/-- The subscription object returned by `subscribe`
(`new SubscriptionImpl(this.protocol, subject, opts)`, line 118). -/
structure SubscriptionImpl where
  subject : String
  deriving DecidableEq, Repr

/-- `subscribe(subject, opts)` (`nats.ts` lines 103-121): closed check, then
draining check, then subject validation, then the subscription is created. -/
def NatsConnection.subscribe (c : NatsConnection) (subject : Option String) :
    Except ErrorCode SubscriptionImpl :=
  if c.isClosed then .error .CONNECTION_CLOSED
  else if c.isDraining then .error .CONNECTION_DRAINING
  else
    let subj := subject.getD ""
    if subj.length = 0 then .error .BAD_SUBJECT
    else .ok ⟨subj⟩

/-- What `request` yields on success: the token, the deadline of the pending
entry, and the frame published on the wire. -/
structure RequestHandle where
  tokenId : Nat
  deadline : Nat
  frame : Frame
  deriving DecidableEq, Repr

/-- `request(subject, timeoutMillis = 1000, data)` (`nats.ts` lines
123-160): closed check, draining check, subject validation — each failure a
rejection of the returned promise — then `opts.timeout = timeoutMillis`,
`new Request(this.protocol.muxSubscriptions, opts)` (which draws a fresh
token, modelled by the counter), `this.protocol.request(r)` (which registers
the pending entry under the token), and a publish with
`reply = baseInbox ++ token`.  A missing `timeoutMillis` argument (`none`)
takes the declared default of `1000`. -/
def NatsConnection.request (c : NatsConnection) (subject : Option String)
    (timeoutMillis : Option Nat := none) (data : JsVal := .undef) :
    NatsConnection × Except ErrorCode RequestHandle :=
  if c.isClosed then (c, .error .CONNECTION_CLOSED)
  else if c.isDraining then (c, .error .CONNECTION_DRAINING)
  else
    let subj := subject.getD ""
    if subj.length = 0 then (c, .error .BAD_SUBJECT)
    else
      let timeoutMs := timeoutMillis.getD 1000
      let tok := c.mux.nextTokenId
      let mux2 : MuxState :=
        { c.mux with
          nextTokenId := tok + 1
          pending := c.mux.pending ++ [⟨tok, timeoutMs⟩] }
      let reply := c.mux.baseInbox ++ tokenStr tok
      match c.publish (some subj) data reply with
      | .error e => ({ c with mux := mux2 }, .error e)
      | .ok f => ({ c with mux := mux2 }, .ok ⟨tok, timeoutMs, f⟩)

/-- `drain()` (`nats.ts` lines 170-183): rejects when closed, rejects when
already draining, otherwise sets `this.draining = true` before delegating to
`this.protocol.drain()`. -/
def NatsConnection.drain (c : NatsConnection) :
    NatsConnection × Except ErrorCode Unit :=
  if c.isClosed then (c, .error .CONNECTION_CLOSED)
  else if c.isDraining then (c, .error .CONNECTION_DRAINING)
  else ({ c with draining := true }, .ok ())

/-- A user-visible operation on the connection, for stating invariants over
arbitrary interleavings.  `closeOp` models `close()` (line 78, delegating to
`protocol.close()` which marks the protocol closed); no operation of the
class ever writes `this.draining = false`. -/
inductive UserOp
  | pubOp (subject : Option String) (data : JsVal) (reply : String)
  | subOp (subject : Option String)
  | reqOp (subject : Option String) (tm : Option Nat) (data : JsVal)
  | drainOp
  | closeOp
  | flushOp

/-- The state reached after performing one operation (`publish`,
`subscribe` and `flush` do not mutate the modelled state). -/
def applyOp (c : NatsConnection) : UserOp → NatsConnection
  | .pubOp _ _ _ => c
  | .subOp _ => c
  | .reqOp s tm d => (c.request s tm d).1
  | .drainOp => (c.drain).1
  | .closeOp => { c with protocolClosed := true }
  | .flushOp => c

/-- The state reached after a sequence of operations. -/
def applyOps (c : NatsConnection) (ops : List UserOp) : NatsConnection :=
  ops.foldl applyOp c

/-!
## Message headers

`headers.ts` is not among the available sources (only its test file is), so
the `NatsHeaders` codec is modelled from the spec, §4.B: the header block is
`NATS/1.0\r\n` followed by MIME-style `Key: Value\r\n` lines and a blank
line; keys must not contain `:`, whitespace or control bytes; values must
not contain CR or LF; keys are canonicalized to ASCII title-case per hyphen
segment.  Headers operate on wire bytes, so keys and values are `List Nat`
of character codes (colon 58, space 32, hyphen 45, CR 13, LF 10).
-/

/-- A key byte is legal when it is not `:` (58), not whitespace (32 and the
control range below it) and not a control byte (0-31, DEL 127). -/
def validKeyByte (n : Nat) : Bool := 32 < n && n != 127 && n != 58

/-- Modelled from the spec: "Keys MUST NOT contain `:`, whitespace, or
control bytes". -/
def validKey (k : List Nat) : Bool := k.all validKeyByte

/-- Modelled from the spec: "values MUST NOT contain CR or LF". -/
def validValue (v : List Nat) : Bool := v.all (fun n => n != 13 && n != 10)

/-- ASCII upper-casing of one byte. -/
def upByte (n : Nat) : Nat := if 97 ≤ n ∧ n ≤ 122 then n - 32 else n

/-- ASCII lower-casing of one byte. -/
def downByte (n : Nat) : Nat := if 65 ≤ n ∧ n ≤ 90 then n + 32 else n

/-- Title-casing walk: upper-case the first byte of each hyphen-separated
segment, lower-case the rest.  The flag records whether the next byte starts
a segment. -/
def canonBytes : Bool → List Nat → List Nat
  | _, [] => []
  | up, n :: ns =>
    if n = 45 then 45 :: canonBytes true ns
    else (if up then upByte n else downByte n) :: canonBytes false ns

/-- Modelled from the spec: `NatsHeaders.canonicalMIMEHeaderKey`, "ASCII
title-case per hyphen segment" (and exercised by the tests: `foo ↦ Foo`,
`foo-bar ↦ Foo-Bar`). -/
def canonicalMIMEHeaderKey (k : List Nat) : List Nat := canonBytes true k

/-- A header map: the entries in insertion order.  Keys are stored
canonicalized, because every constructor (`set`, `append`, `decode`) runs
the key through `canonicalMIMEHeaderKey`. -/
structure NatsHeaders where
  entries : List (List Nat × List Nat)
  deriving DecidableEq, Repr

/-- All entries of a list are wire-legal. -/
def validEntriesB (es : List (List Nat × List Nat)) : Bool :=
  es.all (fun e => validKey e.1 && validValue e.2)

/-- All stored entries are wire-legal. -/
def validHeaders (h : NatsHeaders) : Bool := validEntriesB h.entries

/-- Modelled from the spec: `NatsHeaders.set` — validation of key and value
("The codec surfaces invalid keys/values as a validation error", with code
`BAD_HEADER`), canonicalization, and replacement of any previous entries
under the same canonical key. -/
def NatsHeaders.set (h : NatsHeaders) (k v : List Nat) :
    Except ErrorCode NatsHeaders :=
  if validKey k && validValue v then
    let ck := canonicalMIMEHeaderKey k
    .ok ⟨(h.entries.filter (fun e => !(e.1 = ck : Bool))) ++ [(ck, v)]⟩
  else .error .BAD_HEADER

/-- Modelled from the spec: `NatsHeaders.append` — like `set` but keeps
previous entries under the same key. -/
def NatsHeaders.append (h : NatsHeaders) (k v : List Nat) :
    Except ErrorCode NatsHeaders :=
  if validKey k && validValue v then
    .ok ⟨h.entries ++ [(canonicalMIMEHeaderKey k, v)]⟩
  else .error .BAD_HEADER

/-- `values(k)`: the stored values addressed by a key, looked up through the
canonical form of the key. -/
def NatsHeaders.values (h : NatsHeaders) (k : List Nat) : List (List Nat) :=
  (h.entries.filter (fun e => (e.1 = canonicalMIMEHeaderKey k : Bool))).map
    Prod.snd

/-- The bytes `NATS/1.0` of the preamble line. -/
def preambleBytes : List Nat := [78, 65, 84, 83, 47, 49, 46, 48]

/-- The `Key: Value\r\n` lines of the encoding. -/
def encodeEntries : List (List Nat × List Nat) → List Nat
  | [] => []
  | (k, v) :: rest => k ++ 58 :: 32 :: (v ++ 13 :: 10 :: encodeEntries rest)

/-- Modelled from the spec: `NatsHeaders.encode` — the preamble line, one
`Key: Value` line per entry, and the terminating blank line, all CR LF
terminated. -/
def NatsHeaders.encode (h : NatsHeaders) : List Nat :=
  preambleBytes ++ 13 :: 10 :: (encodeEntries h.entries ++ [13, 10])

/-- Split off everything up to the first CR LF; `none` when no CR LF
follows. -/
def takeLine : List Nat → Option (List Nat × List Nat)
  | [] => none
  | [_] => none
  | a :: b :: rest =>
    if a = 13 ∧ b = 10 then some ([], rest)
    else (takeLine (b :: rest)).map (fun p => (a :: p.1, p.2))

/-- Split a line at its first colon. -/
def splitAtColon : List Nat → Option (List Nat × List Nat)
  | [] => none
  | n :: rest =>
    if n = 58 then some ([], rest)
    else (splitAtColon rest).map (fun p => (n :: p.1, p.2))

/-- Drop the single space the encoder writes after the colon. -/
def dropOneSpace : List Nat → List Nat
  | 32 :: rest => rest
  | l => l

/-- Parse one `Key: Value` line into its raw key and value. -/
def parseHeaderLine (l : List Nat) : Option (List Nat × List Nat) :=
  (splitAtColon l).map (fun p => (p.1, dropOneSpace p.2))

/-- Parse header lines until the blank line; the fuel bounds the number of
lines and only needs to exceed it. -/
def decodeEntries : Nat → List Nat → Option (List (List Nat × List Nat))
  | 0, _ => none
  | fuel + 1, input =>
    match takeLine input with
    | none => none
    | some ([], _) => some []
    | some (line, rest) =>
      match parseHeaderLine line with
      | none => none
      | some kv => (decodeEntries fuel rest).map (fun es => kv :: es)

/-- Rebuild a header map from parsed entries by repeated `append`, so every
key is validated and canonicalized exactly as a user-made entry is. -/
def buildGo (acc : List (List Nat × List Nat)) :
    List (List Nat × List Nat) → Option NatsHeaders
  | [] => some ⟨acc⟩
  | (k, v) :: rest =>
    if validKey k && validValue v then
      buildGo (acc ++ [(canonicalMIMEHeaderKey k, v)]) rest
    else none

/-- Modelled from the spec: `NatsHeaders.decode` — check the preamble line,
parse `Key: Value` lines up to the blank line, and enter each pair through
the canonicalizing/validating insertion path. -/
def NatsHeaders.decode (input : List Nat) : Option NatsHeaders :=
  match takeLine input with
  | none => none
  | some (l, rest) =>
    if l = preambleBytes then
      (decodeEntries (rest.length + 1) rest).bind (fun es => buildGo [] es)
    else none

/-- The canonical image of a header map: every key replaced by its canonical
form. -/
def canonicalize (h : NatsHeaders) : NatsHeaders :=
  ⟨h.entries.map (fun e => (canonicalMIMEHeaderKey e.1, e.2))⟩

/-!
## Lifecycle of one pending request

The `Request` object and the mux dispatch live in `protocol.ts`, which is
not among the available sources; the single-entry lifecycle is modelled from
the spec, §3 "Pending request" and §4.G: the entry is created pending with a
deadline; the first reply carrying its token resolves it single-shot and
removes it; the timer rejects it with `TIMEOUT` at the deadline and the
rejection cancels and removes the entry (`p.catch(() => r.cancel())`,
`nats.ts` lines 156-158); late or unknown replies are silently dropped.
-/

/-- Resolution state of a pending request: still pending, resolved by a
reply, or rejected by the timer with `TIMEOUT`. -/
inductive ReqPhase
  | pending
  | replied (data : List Nat)
  | timedOut
  deriving DecidableEq, Repr

/-- One pending request: its token, its deadline, its resolution state, and
whether it is still registered in the mux table. -/
structure ReqEntry where
  tokenId : Nat
  deadline : Nat
  phase : ReqPhase
  registered : Bool
  deriving DecidableEq, Repr

/-- A reply observed by the mux subscription: arrival time, the token parsed
from the last segment of the reply subject, and the payload. -/
structure ReplyEvent where
  time : Nat
  tokenId : Nat
  data : List Nat
  deriving DecidableEq, Repr

/-- Modelled from the spec: delivery of one reply to the entry.  The timer
fires first when the event is at or past the deadline: the entry is then
already rejected (and cancelled out of the table), and the reply is dropped.
A matching reply on a pending entry resolves it and removes it; anything
else leaves the entry unchanged. -/
def stepReply (e : ReqEntry) (ev : ReplyEvent) : ReqEntry :=
  let e1 :=
    if e.phase = ReqPhase.pending ∧ e.deadline ≤ ev.time then
      { e with phase := ReqPhase.timedOut, registered := false }
    else e
  if e1.phase = ReqPhase.pending ∧ ev.tokenId = e1.tokenId then
    { e1 with phase := ReqPhase.replied ev.data, registered := false }
  else e1

/-- Modelled from the spec: once all replies are in, time passes the
deadline; a still-pending entry is rejected by the timer and removed. -/
def finalizeReq (e : ReqEntry) : ReqEntry :=
  if e.phase = ReqPhase.pending then
    { e with phase := ReqPhase.timedOut, registered := false }
  else e

/-- The complete lifecycle of one request: every reply the connection ever
observes is delivered in arrival order, then the timer runs out. -/
def runRequest (e : ReqEntry) (evs : List ReplyEvent) : ReqEntry :=
  finalizeReq (evs.foldl stepReply e)

/-- A reply for the entry's token arriving strictly within the deadline. -/
def matchingBefore (e : ReqEntry) (evs : List ReplyEvent) : Prop :=
  ∃ ev ∈ evs, ev.tokenId = e.tokenId ∧ ev.time < e.deadline

/-!
## The closed() future

`ProtocolHandler.closed` and `ProtocolHandler.close()` live in
`protocol.ts`, which is not among the available sources; they are modelled
from the spec: "Any state → CLOSED: terminal; resolves the `closed()` future
exactly once, with an error if a fatal condition triggered it" (§4.H) and
"`close` is idempotent; concurrent callers all observe the same `closed()`
resolution" (§5).  A promise is identified by an allocation number so that
"the same promise" is expressible; the deferred's resolution is `none` while
unresolved, `some none` for a void resolution and `some (some err)` for an
error resolution.
-/

/-- Modelled from the spec: the protocol handler state visible to `closed()`
and `close()`: the identity of the one promise backing `closed()`, its
resolution slot, the allocation counter for promises, and the closed flag. -/
structure ProtocolState where
  closedPromiseId : Nat
  closedResolution : Option (Option String)
  nextPromiseId : Nat
  isClosedFlag : Bool
  deriving DecidableEq, Repr

/-- Modelled from the spec: resolving a deferred is single-shot — a second
resolution is a no-op. -/
def resolveClosed (p : ProtocolState) (v : Option String) : ProtocolState :=
  match p.closedResolution with
  | some _ => p
  | none => { p with closedResolution := some v }

/-- `closed()` (`nats.ts` lines 74-76): returns `this.protocol.closed`, the
one stored promise — no allocation, no state change. -/
def closedCall (p : ProtocolState) : ProtocolState × Nat :=
  (p, p.closedPromiseId)

/-- Modelled from the spec: `close()` — idempotent transition to the
terminal CLOSED state; an orderly close resolves the future with void. -/
def closeCall (p : ProtocolState) : ProtocolState :=
  if p.isClosedFlag then p
  else { resolveClosed p none with isClosedFlag := true }

/-- Modelled from the spec: a fatal condition closing the connection — the
future resolves with the error. -/
def fatalClose (p : ProtocolState) (err : String) : ProtocolState :=
  if p.isClosedFlag then p
  else { resolveClosed p (some err) with isClosedFlag := true }

/-- All registered tokens were handed out by the counter. -/
def muxInv (m : MuxState) : Prop :=
  ∀ p ∈ m.pending, p.tokenId < m.nextTokenId

/-- A connection for witnesses: open, not draining, string payload mode,
fresh mux. -/
def connEx : NatsConnection :=
  ⟨false, false, Payload.STRING, ⟨"_INBOX.abcd.", 0, []⟩⟩

/-!
## Supporting lemmas
-/

/-- `request` on an open, non-draining connection with a nonempty subject:
the token is drawn, the entry is registered, and the frame is published with
`reply = baseInbox ++ token`. -/
lemma request_open (c : NatsConnection) (s : String) (hs : s.length ≠ 0)
    (hc : c.isClosed = false) (hd : c.isDraining = false)
    (tm : Option Nat) (d : JsVal) :
    c.request (some s) tm d =
      ({ c with mux :=
          { c.mux with
            nextTokenId := c.mux.nextTokenId + 1
            pending := c.mux.pending ++ [⟨c.mux.nextTokenId, tm.getD 1000⟩] } },
       .ok ⟨c.mux.nextTokenId, tm.getD 1000,
            ⟨s, preparePayload c.payloadMode d,
             c.mux.baseInbox ++ tokenStr c.mux.nextTokenId⟩⟩) := by
  unfold NatsConnection.request NatsConnection.publish protocolPublish
  simp [hc, hd, hs]

/-- `request` never touches the draining flag. -/
lemma request_draining (c : NatsConnection) (s : Option String)
    (tm : Option Nat) (d : JsVal) :
    ((c.request s tm d).1).draining = c.draining := by
  unfold NatsConnection.request
  split
  · rfl
  · split
    · rfl
    · dsimp only
      split
      · rfl
      · split <;> rfl

/-- `drain` on a closed connection rejects with `CONNECTION_CLOSED`. -/
lemma drain_result_closed (c : NatsConnection) (h : c.isClosed = true) :
    (c.drain).2 = .error .CONNECTION_CLOSED := by
  simp [NatsConnection.drain, h]

/-- `drain` on an unclosed draining connection rejects with
`CONNECTION_DRAINING`. -/
lemma drain_result_draining (c : NatsConnection) (h1 : c.isClosed = false)
    (h2 : c.isDraining = true) :
    (c.drain).2 = .error .CONNECTION_DRAINING := by
  simp [NatsConnection.drain, h1, h2]

/-- `drain` never clears the draining flag. -/
lemma drain_draining (c : NatsConnection) (h : c.draining = true) :
    ((c.drain).1).draining = true := by
  unfold NatsConnection.drain
  split
  · exact h
  · split
    · exact h
    · rfl

/-- No operation clears the draining flag. -/
lemma applyOp_draining (c : NatsConnection) (op : UserOp)
    (h : c.draining = true) : (applyOp c op).draining = true := by
  cases op with
  | pubOp s d r => exact h
  | subOp s => exact h
  | reqOp s tm d => rw [applyOp, request_draining]; exact h
  | drainOp => exact drain_draining c h
  | closeOp => exact h
  | flushOp => exact h

/-- No sequence of operations clears the draining flag. -/
lemma applyOps_draining (ops : List UserOp) :
    ∀ c : NatsConnection, c.draining = true → (applyOps c ops).draining = true := by
  induction ops with
  | nil => intro c h; exact h
  | cons op ops ih =>
    intro c h
    exact ih (applyOp c op) (applyOp_draining c op h)

/-!
## The claims
-/

/-- C1: a call to `publish`, `subscribe` or `request` with an empty subject
(or a `null`/`undefined` subject argument, i.e. `none`) fails with
`BAD_SUBJECT`.  `publish` and `subscribe` throw (their synchronous `Except`
result is the error); `request` returns its error on the promise component
of its result.  For `subscribe` and `request` the state checks of
`nats.ts` lines 107-112 / 128-137 come first, so the connection is taken
open and not draining; `publish` performs no state check before the subject
check, so its part is unconditional. -/
theorem claim_C1 :
    (∀ (c : NatsConnection) (s : Option String), (s = none ∨ s = some "") →
      ∀ (d : JsVal) (r : String), c.publish s d r = .error .BAD_SUBJECT)
  ∧ (∀ (c : NatsConnection) (s : Option String), (s = none ∨ s = some "") →
      c.isClosed = false → c.isDraining = false →
      c.subscribe s = .error .BAD_SUBJECT)
  ∧ (∀ (c : NatsConnection) (s : Option String), (s = none ∨ s = some "") →
      c.isClosed = false → c.isDraining = false →
      ∀ (tm : Option Nat) (d : JsVal),
        (c.request s tm d).2 = .error .BAD_SUBJECT
        ∧ (c.request s tm d).1 = c) := by
  refine ⟨?_, ?_, ?_⟩
  · rintro c s (rfl | rfl) d r <;> simp [NatsConnection.publish]
  · rintro c s (rfl | rfl) hc hd <;> simp [NatsConnection.subscribe, hc, hd]
  · rintro c s (rfl | rfl) hc hd tm d <;>
      simp [NatsConnection.request, hc, hd]

/-- Witness for C1 at a concrete connection and both degenerate subjects. -/
theorem claim_C1_witness :
    connEx.publish none (.str "hello") "" = .error .BAD_SUBJECT
    ∧ connEx.subscribe (some "") = .error .BAD_SUBJECT
    ∧ (connEx.request none none (.str "x")).2 = .error .BAD_SUBJECT :=
  ⟨claim_C1.1 connEx none (Or.inl rfl) (.str "hello") "",
   claim_C1.2.1 connEx (some "") (Or.inr rfl) rfl rfl,
   (claim_C1.2.2 connEx none (Or.inl rfl) rfl rfl none (.str "x")).1⟩

/-- C2: a closed or draining connection stops accepting new work.
`subscribe` throws `CONNECTION_CLOSED` when closed and `CONNECTION_DRAINING`
when draining, each before any subject validation (the subject is
universally quantified, including the invalid ones); `request` and `drain`
reject with the same codes under the same conditions; and a `publish`
issued while draining is not accepted — the protocol layer refuses it
(spec §4.H; `protocolPublish` is modelled from the spec because
`protocol.ts` is not in the sources). -/
theorem claim_C2 :
    (∀ (c : NatsConnection) (s : Option String), c.isClosed = true →
        c.subscribe s = .error .CONNECTION_CLOSED)
  ∧ (∀ (c : NatsConnection) (s : Option String),
        c.isClosed = false → c.isDraining = true →
        c.subscribe s = .error .CONNECTION_DRAINING)
  ∧ (∀ (c : NatsConnection) (s : Option String) (tm : Option Nat) (d : JsVal),
        c.isClosed = true →
        (c.request s tm d).2 = .error .CONNECTION_CLOSED)
  ∧ (∀ (c : NatsConnection) (s : Option String) (tm : Option Nat) (d : JsVal),
        c.isClosed = false → c.isDraining = true →
        (c.request s tm d).2 = .error .CONNECTION_DRAINING)
  ∧ (∀ c : NatsConnection, c.isClosed = true →
        (c.drain).2 = .error .CONNECTION_CLOSED)
  ∧ (∀ c : NatsConnection, c.isClosed = false → c.isDraining = true →
        (c.drain).2 = .error .CONNECTION_DRAINING)
  ∧ (∀ (c : NatsConnection) (s : Option String) (d : JsVal) (r : String),
        c.isDraining = true → ∃ e, c.publish s d r = .error e)
  ∧ (∀ (c : NatsConnection) (s : String) (d : JsVal) (r : String),
        c.isClosed = false → c.isDraining = true → s.length ≠ 0 →
        c.publish (some s) d r = .error .CONNECTION_DRAINING) := by
  refine ⟨?_, ?_, ?_, ?_, ?_, ?_, ?_, ?_⟩
  · intro c s hc; simp [NatsConnection.subscribe, hc]
  · intro c s hc hd; simp [NatsConnection.subscribe, hc, hd]
  · intro c s tm d hc; simp [NatsConnection.request, hc]
  · intro c s tm d hc hd; simp [NatsConnection.request, hc, hd]
  · intro c hc; simp [NatsConnection.drain, hc]
  · intro c hc hd; simp [NatsConnection.drain, hc, hd]
  · intro c s d r hd
    unfold NatsConnection.publish protocolPublish
    by_cases hl : (s.getD "").length = 0
    · exact ⟨.BAD_SUBJECT, by simp [hl]⟩
    · by_cases hc : c.isClosed
      · exact ⟨.CONNECTION_CLOSED, by simp [hl, hc]⟩
      · exact ⟨.CONNECTION_DRAINING, by simp [hl, hc, hd]⟩
  · intro c s d r hc hd hl
    simp [NatsConnection.publish, protocolPublish, hl, hc, hd]

/-- Witness for C2 at concrete closed and draining connections. -/
theorem claim_C2_witness :
    ({ connEx with protocolClosed := true } : NatsConnection).subscribe
        (some "greet") = .error .CONNECTION_CLOSED
    ∧ ({ connEx with draining := true } : NatsConnection).subscribe
        (some "greet") = .error .CONNECTION_DRAINING
    ∧ (({ connEx with draining := true } : NatsConnection).drain).2
        = .error .CONNECTION_DRAINING
    ∧ ({ connEx with draining := true } : NatsConnection).publish
        (some "greet") (.str "hi") "" = .error .CONNECTION_DRAINING :=
  ⟨claim_C2.1 _ (some "greet") rfl,
   claim_C2.2.1 _ (some "greet") rfl rfl,
   claim_C2.2.2.2.2.2.1 _ rfl rfl,
   claim_C2.2.2.2.2.2.2.2 _ "greet" (.str "hi") "" rfl rfl (by decide)⟩

/-- C6: `publish` hands the protocol layer bytes only.  A `Uint8Array`
payload passes through unchanged; a non-`Uint8Array` payload in JSON
payload mode is `JSON.stringify`-ed after `undefined` is mapped to `null`,
then UTF-8 encoded; otherwise it is coerced through `data || ""` (which
maps `undefined`, `null` and `""` to `""`) and UTF-8 encoded. -/
theorem claim_C6 (c : NatsConnection) (s : String) (hs : s.length ≠ 0)
    (hc : c.isClosed = false) (hd : c.isDraining = false) :
    (∀ (b : List Nat) (r : String),
        c.publish (some s) (.bytes b) r = .ok ⟨s, b, r⟩)
  ∧ (∀ (v : JsVal) (r : String),
        isUint8Array v = false → c.payloadMode = Payload.JSON →
        c.publish (some s) v r =
          .ok ⟨s, utf8Encode (jsonStringify
                    (if v = JsVal.undef then JsVal.jsNull else v)), r⟩)
  ∧ (∀ (v : JsVal) (r : String),
        isUint8Array v = false → c.payloadMode ≠ Payload.JSON →
        c.publish (some s) v r =
          .ok ⟨s, utf8Encode (jsToString (jsOr v (.str ""))), r⟩)
  ∧ (jsOr .undef (.str "") = .str "" ∧ jsOr .jsNull (.str "") = .str ""
      ∧ jsOr (.str "") (.str "") = .str "") := by
  refine ⟨?_, ?_, ?_, by simp [jsOr, jsFalsy], by simp [jsOr, jsFalsy],
          by simp [jsOr, jsFalsy]⟩
  · intro b r
    simp [NatsConnection.publish, protocolPublish, preparePayload, hs, hc, hd]
  · intro v r hv hm
    cases v with
    | bytes b => simp [isUint8Array] at hv
    | str t =>
      simp [NatsConnection.publish, protocolPublish, preparePayload,
            hs, hc, hd, hm, jsToString]
    | undef =>
      simp [NatsConnection.publish, protocolPublish, preparePayload,
            hs, hc, hd, hm, jsToString]
    | jsNull =>
      simp [NatsConnection.publish, protocolPublish, preparePayload,
            hs, hc, hd, hm, jsToString]
  · intro v r hv hm
    cases v with
    | bytes b => simp [isUint8Array] at hv
    | str t =>
      simp [NatsConnection.publish, protocolPublish, preparePayload,
            hs, hc, hd, hm]
    | undef =>
      simp [NatsConnection.publish, protocolPublish, preparePayload,
            hs, hc, hd, hm]
    | jsNull =>
      simp [NatsConnection.publish, protocolPublish, preparePayload,
            hs, hc, hd, hm]

/-- Witness for C6: bytes pass through, a string payload in string mode is
UTF-8 encoded. -/
theorem claim_C6_witness :
    connEx.publish (some "greet") (.bytes [104, 105]) ""
        = .ok ⟨"greet", [104, 105], ""⟩
    ∧ connEx.publish (some "greet") (.str "hi") ""
        = .ok ⟨"greet", utf8Encode (jsToString (jsOr (.str "hi") (.str ""))), ""⟩ :=
  ⟨(claim_C6 connEx "greet" (by decide) rfl rfl).1 [104, 105] "",
   (claim_C6 connEx "greet" (by decide) rfl rfl).2.2.1 (.str "hi") "" rfl
     (by decide)⟩

/-- C7: every request goes through the mux.  On an open, non-draining
connection, `request` allocates a token fresh for the pending table,
registers a pending entry under that token, and publishes on the user's
subject with `reply` the concatenation of the connection's mux base inbox
and the token (`nats.ts` line 152).  The freshness hypothesis `muxInv` —
every registered token came from the generator — is preserved. -/
theorem claim_C7 (c : NatsConnection) (s : String) (hs : s.length ≠ 0)
    (hc : c.isClosed = false) (hd : c.isDraining = false)
    (hinv : muxInv c.mux) (tm : Option Nat) (d : JsVal) :
    ∃ h : RequestHandle,
      (c.request (some s) tm d).2 = .ok h
      ∧ h.tokenId ∉ c.mux.pending.map PendingReq.tokenId
      ∧ (⟨h.tokenId, tm.getD 1000⟩ : PendingReq)
          ∈ ((c.request (some s) tm d).1).mux.pending
      ∧ h.frame.reply = c.mux.baseInbox ++ tokenStr h.tokenId
      ∧ h.frame.subject = s
      ∧ h.frame.data = preparePayload c.payloadMode d
      ∧ muxInv ((c.request (some s) tm d).1).mux := by
  rw [request_open c s hs hc hd tm d]
  refine ⟨_, rfl, ?_, ?_, rfl, rfl, rfl, ?_⟩
  · intro hmem
    simp only [List.mem_map] at hmem
    obtain ⟨p, hp, hpt⟩ := hmem
    have h2 := hinv p hp
    rw [hpt] at h2
    exact absurd h2 (lt_irrefl _)
  · simp
  · intro p hp
    simp only [List.mem_append, List.mem_singleton] at hp
    rcases hp with hp | rfl
    · have h2 := hinv p hp
      have h3 : p.tokenId < c.mux.nextTokenId + 1 := by omega
      exact h3
    · show c.mux.nextTokenId < c.mux.nextTokenId + 1
      omega

/-- Witness for C7 on a fresh connection. -/
theorem claim_C7_witness :
    ∃ h : RequestHandle,
      (connEx.request (some "svc") none (.str "ping")).2 = .ok h
      ∧ h.frame.reply = "_INBOX.abcd." ++ tokenStr h.tokenId :=
  match claim_C7 connEx "svc" (by decide) rfl rfl
      (fun p hp => absurd hp (List.not_mem_nil p)) none (.str "ping") with
  | ⟨h, h1, _, _, h4, _⟩ => ⟨h, h1, h4⟩

/-- C9 counterexample: the claim "every subsequent drain() call rejects with
CONNECTION_DRAINING" fails once the connection also closes, because
`drain()` checks `isClosed()` before `isDraining()` (`nats.ts` lines
171-180): drain, then close, then drain rejects with `CONNECTION_CLOSED`,
even though the connection is still draining. -/
theorem claim_C9_counterexample :
    ((applyOps ((connEx.drain).1) [UserOp.closeOp]).drain).2
        = .error .CONNECTION_CLOSED
    ∧ ((applyOps ((connEx.drain).1) [UserOp.closeOp]).drain).2
        ≠ .error .CONNECTION_DRAINING
    ∧ (applyOps ((connEx.drain).1) [UserOp.closeOp]).isDraining = true := by
  refine ⟨rfl, ?_, rfl⟩
  intro h
  have := Except.error.inj h
  cases this

/-- C9 (amended): drain is irreversible — once `drain()` is invoked on an
open, non-draining connection, `isDraining()` returns `true` after every
further sequence of operations (the flag is set before delegating to the
protocol and no operation clears it), and every subsequent `drain()` call
rejects: with `CONNECTION_DRAINING` as long as the connection has not
closed, and with `CONNECTION_CLOSED` once it has. -/
theorem claim_C9 (c : NatsConnection)
    (hc : c.isClosed = false) (hd : c.isDraining = false) :
    ((c.drain).1).isDraining = true
  ∧ (∀ ops : List UserOp, (applyOps (c.drain).1 ops).isDraining = true)
  ∧ (∀ ops : List UserOp, ∃ e,
        ((applyOps (c.drain).1 ops).drain).2 = .error e)
  ∧ (∀ ops : List UserOp, (applyOps (c.drain).1 ops).isClosed = false →
        ((applyOps (c.drain).1 ops).drain).2 = .error .CONNECTION_DRAINING)
  ∧ (∀ ops : List UserOp, (applyOps (c.drain).1 ops).isClosed = true →
        ((applyOps (c.drain).1 ops).drain).2 = .error .CONNECTION_CLOSED) := by
  have hstart : ((c.drain).1).draining = true := by
    unfold NatsConnection.drain
    simp [hc, hd]
  have hall : ∀ ops : List UserOp, (applyOps (c.drain).1 ops).draining = true :=
    fun ops => applyOps_draining ops _ hstart
  refine ⟨hstart, hall, ?_, ?_, ?_⟩
  · intro ops
    by_cases hcl : (applyOps (c.drain).1 ops).isClosed
    · exact ⟨.CONNECTION_CLOSED, drain_result_closed _ hcl⟩
    · exact ⟨.CONNECTION_DRAINING,
        drain_result_draining _ (by simpa using hcl) (hall ops)⟩
  · intro ops hcl
    exact drain_result_draining _ hcl (hall ops)
  · intro ops hcl
    exact drain_result_closed _ hcl

/-- Witness for C9 (amended) on a fresh connection with no further
operations and with an interleaved request. -/
theorem claim_C9_witness :
    ((connEx.drain).1).isDraining = true
    ∧ (applyOps (connEx.drain).1
        [UserOp.reqOp (some "q") none JsVal.undef]).isDraining = true
    ∧ ((applyOps (connEx.drain).1 []).drain).2
        = .error .CONNECTION_DRAINING :=
  ⟨(claim_C9 connEx rfl rfl).1,
   (claim_C9 connEx rfl rfl).2.1 [UserOp.reqOp (some "q") none JsVal.undef],
   (claim_C9 connEx rfl rfl).2.2.2.1 [] rfl⟩

/-- C10: a `request` without an explicit timeout defaults the pending
entry's deadline to 1000 milliseconds (`timeoutMillis: number = 1000`,
`nats.ts` line 125), and with no reply at all the lifecycle rejects the
request by timeout at that deadline. -/
theorem claim_C10 (c : NatsConnection) (s : String) (hs : s.length ≠ 0)
    (hc : c.isClosed = false) (hd : c.isDraining = false) (d : JsVal) :
    ∃ h : RequestHandle,
      (c.request (some s) none d).2 = .ok h
      ∧ h.deadline = 1000
      ∧ (⟨h.tokenId, 1000⟩ : PendingReq)
          ∈ ((c.request (some s) none d).1).mux.pending
      ∧ runRequest ⟨h.tokenId, h.deadline, ReqPhase.pending, true⟩ []
          = ⟨h.tokenId, 1000, ReqPhase.timedOut, false⟩ := by
  rw [request_open c s hs hc hd none d]
  exact ⟨_, rfl, rfl, by simp, by simp [runRequest, finalizeReq]⟩

/-- Witness for C10 on a fresh connection. -/
theorem claim_C10_witness :
    ∃ h : RequestHandle,
      (connEx.request (some "time") none (.str "hello")).2 = .ok h
      ∧ h.deadline = 1000 :=
  match claim_C10 connEx "time" (by decide) rfl rfl (.str "hello") with
  | ⟨h, h1, h2, _, _⟩ => ⟨h, h1, h2⟩

/-- A resolved (non-pending) entry is never changed by a further reply. -/
lemma stepReply_nonpending (e : ReqEntry) (ev : ReplyEvent)
    (h : e.phase ≠ ReqPhase.pending) : stepReply e ev = e := by
  unfold stepReply
  simp [h]

/-- A resolved entry is never changed by any further replies. -/
lemma foldl_stepReply_nonpending (evs : List ReplyEvent) :
    ∀ e : ReqEntry, e.phase ≠ ReqPhase.pending →
      evs.foldl stepReply e = e := by
  induction evs with
  | nil => intro e _; rfl
  | cons ev evs ih =>
    intro e h
    rw [List.foldl_cons, stepReply_nonpending e ev h]
    exact ih e h

/-- `stepReply` never changes the token or the deadline. -/
lemma stepReply_fixed (e : ReqEntry) (ev : ReplyEvent) :
    (stepReply e ev).tokenId = e.tokenId
    ∧ (stepReply e ev).deadline = e.deadline := by
  unfold stepReply
  dsimp only
  split <;> split <;> simp_all

/-- Without a matching reply strictly inside the deadline, the entry never
resolves with a reply. -/
lemma foldl_no_match (evs : List ReplyEvent) :
    ∀ e : ReqEntry,
      (e.phase = ReqPhase.pending ∨ e.phase = ReqPhase.timedOut) →
      (∀ ev ∈ evs, ev.tokenId = e.tokenId → e.deadline ≤ ev.time) →
      (evs.foldl stepReply e).phase = ReqPhase.pending
      ∨ (evs.foldl stepReply e).phase = ReqPhase.timedOut := by
  induction evs with
  | nil => intro e hph _; exact hph
  | cons ev evs ih =>
    intro e hph h
    rw [List.foldl_cons]
    have hfix := stepReply_fixed e ev
    refine ih (stepReply e ev) ?_ ?_
    · rcases hph with hp | ht
      · unfold stepReply
        by_cases htm : e.deadline ≤ ev.time
        · simp [hp, htm]
        · by_cases hmt : ev.tokenId = e.tokenId
          · exact absurd (h ev (by simp) hmt) htm
          · simp [hp, htm, hmt]
      · rw [stepReply_nonpending e ev (by simp [ht])]
        exact Or.inr ht
    · intro ev2 h2 hmt
      rw [hfix.2]
      exact h ev2 (by simp [h2]) (by rw [hfix.1] at hmt; exact hmt)

/-- With a matching reply strictly inside the deadline and replies arriving
in chronological order, the entry resolves with a reply. -/
lemma foldl_match (evs : List ReplyEvent) :
    ∀ e : ReqEntry, e.phase = ReqPhase.pending →
      evs.Sorted (fun a b => a.time ≤ b.time) →
      (∃ ev ∈ evs, ev.tokenId = e.tokenId ∧ ev.time < e.deadline) →
      ∃ d, (evs.foldl stepReply e).phase = ReqPhase.replied d := by
  induction evs with
  | nil =>
    intro e _ _ hm
    obtain ⟨ev, hmem, _⟩ := hm
    exact absurd hmem (List.not_mem_nil ev)
  | cons ev evs ih =>
    intro e hph hs hm
    obtain ⟨w, hwmem, hwt, hwlt⟩ := hm
    have hhead : ∀ b ∈ evs, ev.time ≤ b.time := (List.sorted_cons.mp hs).1
    have hevlt : ev.time < e.deadline := by
      rcases List.mem_cons.mp hwmem with rfl | hwevs
      · exact hwlt
      · exact lt_of_le_of_lt (hhead w hwevs) hwlt
    rw [List.foldl_cons]
    by_cases hmt : ev.tokenId = e.tokenId
    · have hstep : stepReply e ev =
          { e with phase := ReqPhase.replied ev.data, registered := false } := by
        unfold stepReply
        simp [hph, hmt, Nat.not_le.mpr hevlt]
      rw [hstep, foldl_stepReply_nonpending evs _ (by simp)]
      exact ⟨ev.data, rfl⟩
    · have hstep : stepReply e ev = e := by
        unfold stepReply
        simp [hph, hmt, Nat.not_le.mpr hevlt]
      rw [hstep]
      refine ih e hph (List.sorted_cons.mp hs).2 ⟨w, ?_, hwt, hwlt⟩
      rcases List.mem_cons.mp hwmem with rfl | hwevs
      · exact absurd hwt hmt
      · exact hwevs

/-- Entries away from `pending` have been deregistered. -/
lemma stepReply_registered (e : ReqEntry) (ev : ReplyEvent)
    (h : e.phase = ReqPhase.pending ∨ e.registered = false) :
    (stepReply e ev).phase = ReqPhase.pending
    ∨ (stepReply e ev).registered = false := by
  unfold stepReply
  dsimp only
  split <;> split <;> simp_all

/-- The deregistration invariant holds through any reply sequence. -/
lemma foldl_registered (evs : List ReplyEvent) :
    ∀ e : ReqEntry, e.phase = ReqPhase.pending ∨ e.registered = false →
      (evs.foldl stepReply e).phase = ReqPhase.pending
      ∨ (evs.foldl stepReply e).registered = false := by
  induction evs with
  | nil => intro e h; exact h
  | cons ev evs ih =>
    intro e h
    rw [List.foldl_cons]
    exact ih (stepReply e ev) (stepReply_registered e ev h)

/-- C3: a request rejects with `TIMEOUT` exactly when no reply for its
token arrives strictly within its deadline (the timer fires first at the
deadline); the entry admits at most one resolution — after the run no
further reply changes it — and once resolved (by reply or by the timeout
rejection) the entry is removed from the pending table. -/
theorem claim_C3 (e : ReqEntry) (evs : List ReplyEvent)
    (hph : e.phase = ReqPhase.pending)
    (hs : evs.Sorted (fun a b => a.time ≤ b.time)) :
    ((runRequest e evs).phase = ReqPhase.timedOut ↔ ¬ matchingBefore e evs)
  ∧ (runRequest e evs).phase ≠ ReqPhase.pending
  ∧ (runRequest e evs).registered = false
  ∧ (∀ ev, stepReply (runRequest e evs) ev = runRequest e evs) := by
  have hnp : (runRequest e evs).phase ≠ ReqPhase.pending := by
    unfold runRequest finalizeReq
    split <;> simp_all
  have hreg : (runRequest e evs).registered = false := by
    have h1 := foldl_registered evs e (Or.inl hph)
    unfold runRequest finalizeReq
    rcases h1 with h1 | h1
    · simp [h1]
    · split <;> simp [h1]
  refine ⟨⟨?_, ?_⟩, hnp, hreg, ?_⟩
  · intro hto hm
    obtain ⟨d, hd⟩ := foldl_match evs e hph hs hm
    unfold runRequest finalizeReq at hto
    simp [hd] at hto
  · intro hm
    have h1 := foldl_no_match evs e (Or.inl hph) (by
      intro ev hev hmt
      by_contra hlt
      exact hm ⟨ev, hev, hmt, Nat.lt_of_not_le hlt⟩)
    unfold runRequest finalizeReq
    rcases h1 with h1 | h1
    · simp [h1]
    · split <;> simp_all
  · intro ev
    exact stepReply_nonpending _ ev hnp

/-- Witness for C3: a fresh pending entry with no replies at all times out,
and one with a timely matching reply resolves. -/
theorem claim_C3_witness :
    (runRequest ⟨7, 50, ReqPhase.pending, true⟩ []).phase = ReqPhase.timedOut
    ∧ (runRequest ⟨7, 50, ReqPhase.pending, true⟩
        [⟨10, 7, [104]⟩]).phase ≠ ReqPhase.timedOut :=
  ⟨(claim_C3 ⟨7, 50, ReqPhase.pending, true⟩ [] rfl List.sorted_nil).1.mpr
      (by intro h; obtain ⟨ev, hmem, _⟩ := h; exact absurd hmem (List.not_mem_nil ev)),
   fun h =>
     ((claim_C3 ⟨7, 50, ReqPhase.pending, true⟩ [⟨10, 7, [104]⟩] rfl
        (List.sorted_singleton _)).1.mp h)
       ⟨⟨10, 7, [104]⟩, by simp, rfl, by decide⟩⟩

/-- After `closeCall` the handler is flagged closed. -/
lemma closeCall_flag (p : ProtocolState) :
    (closeCall p).isClosedFlag = true := by
  unfold closeCall
  split
  · assumption
  · rfl

/-- After `fatalClose` the handler is flagged closed. -/
lemma fatalClose_flag (p : ProtocolState) (e : String) :
    (fatalClose p e).isClosedFlag = true := by
  unfold fatalClose
  split
  · assumption
  · rfl

/-- `closeCall` on an already-closed handler changes nothing. -/
lemma closeCall_flagged (p : ProtocolState) (h : p.isClosedFlag = true) :
    closeCall p = p := by
  unfold closeCall
  simp [h]

/-- `fatalClose` on an already-closed handler changes nothing. -/
lemma fatalClose_flagged (p : ProtocolState) (e : String)
    (h : p.isClosedFlag = true) : fatalClose p e = p := by
  unfold fatalClose
  simp [h]

/-- An existing resolution is never overwritten. -/
lemma resolveClosed_resolved (p : ProtocolState) (v : Option String)
    (w : Option String) (hv : p.closedResolution = some v) :
    resolveClosed p w = p := by
  unfold resolveClosed
  simp [hv]

/-- C8: `close` is idempotent and closure is observed uniformly.  `closed()`
returns the one stored promise without changing state (so every caller gets
the same promise, and no new promise is allocated); `close` after `close`,
and `close` after a fatal closure, change nothing, and a fatal condition
after an orderly `close` changes nothing; the future resolves exactly once —
an orderly `close` resolves it with void, a fatal condition with its error,
and an existing resolution is never overwritten by either. -/
theorem claim_C8 (p : ProtocolState) :
    ((closedCall p).1 = p ∧ (closedCall p).2 = p.closedPromiseId
      ∧ (closedCall ((closedCall p).1)).2 = (closedCall p).2
      ∧ (closedCall p).1.nextPromiseId = p.nextPromiseId)
  ∧ closeCall (closeCall p) = closeCall p
  ∧ (∀ e, closeCall (fatalClose p e) = fatalClose p e)
  ∧ (∀ e, fatalClose (closeCall p) e = closeCall p)
  ∧ (p.closedResolution = none → p.isClosedFlag = false →
      (closeCall p).closedResolution = some none)
  ∧ (∀ e, p.closedResolution = none → p.isClosedFlag = false →
      (fatalClose p e).closedResolution = some (some e))
  ∧ (∀ v, p.closedResolution = some v →
      (closeCall p).closedResolution = some v
      ∧ ∀ e, (fatalClose p e).closedResolution = some v) := by
  refine ⟨⟨rfl, rfl, rfl, rfl⟩, ?_, ?_, ?_, ?_, ?_, ?_⟩
  · exact closeCall_flagged _ (closeCall_flag p)
  · intro e
    exact closeCall_flagged _ (fatalClose_flag p e)
  · intro e
    exact fatalClose_flagged _ e (closeCall_flag p)
  · intro h1 h2
    unfold closeCall resolveClosed
    rw [if_neg (by simp [h2]), h1]
  · intro e h1 h2
    unfold fatalClose resolveClosed
    rw [if_neg (by simp [h2]), h1]
  · intro v hv
    refine ⟨?_, ?_⟩
    · unfold closeCall
      split
      · exact hv
      · rw [resolveClosed_resolved p v none hv]
        exact hv
    · intro e
      unfold fatalClose
      split
      · exact hv
      · rw [resolveClosed_resolved p v (some e) hv]
        exact hv

/-- Witness for C8 on a fresh unresolved handler and on a resolved one. -/
theorem claim_C8_witness :
    (closeCall ⟨0, none, 1, false⟩).closedResolution = some none
    ∧ (fatalClose ⟨0, none, 1, false⟩ "boom").closedResolution
        = some (some "boom")
    ∧ (closeCall ⟨0, some (some "late"), 1, true⟩).closedResolution
        = some (some "late") :=
  ⟨(claim_C8 ⟨0, none, 1, false⟩).2.2.2.2.1 rfl rfl,
   (claim_C8 ⟨0, none, 1, false⟩).2.2.2.2.2.1 "boom" rfl rfl,
   ((claim_C8 ⟨0, some (some "late"), 1, true⟩).2.2.2.2.2.2
      (some "late") rfl).1⟩

/-- A legal key byte is printable, so neither CR, LF nor colon. -/
lemma validKey_mem {k : List Nat} (h : validKey k = true) {n : Nat}
    (hn : n ∈ k) : 32 < n ∧ n ≠ 127 ∧ n ≠ 58 := by
  unfold validKey at h
  have h2 := List.all_eq_true.mp h n hn
  unfold validKeyByte at h2
  simp at h2
  omega

/-- A legal value byte is neither CR nor LF. -/
lemma validValue_mem {v : List Nat} (h : validValue v = true) {n : Nat}
    (hn : n ∈ v) : n ≠ 13 ∧ n ≠ 10 := by
  unfold validValue at h
  have h2 := List.all_eq_true.mp h n hn
  simp at h2
  omega

/-- A `Key: Value` line contains no CR. -/
lemma line_no13 {k v : List Nat} (hk : validKey k = true)
    (hv : validValue v = true) : ∀ n ∈ k ++ 58 :: 32 :: v, n ≠ 13 := by
  intro n hn
  rcases List.mem_append.mp hn with hnk | hnv
  · have := validKey_mem hk hnk
    omega
  · rcases List.mem_cons.mp hnv with rfl | hnv
    · omega
    · rcases List.mem_cons.mp hnv with rfl | hnv
      · omega
      · exact (validValue_mem hv hnv).1

/-- `takeLine` recovers a CR-free line terminated by CR LF. -/
lemma takeLine_append (l rest : List Nat) (h : ∀ n ∈ l, n ≠ 13) :
    takeLine (l ++ 13 :: 10 :: rest) = some (l, rest) := by
  induction l with
  | nil => simp [takeLine]
  | cons a l ih =>
    have ha : a ≠ 13 := h a (by simp)
    have h2 : ∀ n ∈ l, n ≠ 13 := fun n hn => h n (by simp [hn])
    have ihh := ih h2
    cases l with
    | nil =>
      simp only [List.nil_append] at ihh
      simp [takeLine, ha, ihh]
    | cons b l2 =>
      simp only [List.cons_append] at ihh ⊢
      simp [takeLine, ha, ihh]

/-- `splitAtColon` recovers a colon-free prefix. -/
lemma splitAtColon_append (k r : List Nat) (h : ∀ n ∈ k, n ≠ 58) :
    splitAtColon (k ++ 58 :: r) = some (k, r) := by
  induction k with
  | nil => simp [splitAtColon]
  | cons a k ih =>
    have ha : a ≠ 58 := h a (by simp)
    have h2 : ∀ n ∈ k, n ≠ 58 := fun n hn => h n (by simp [hn])
    simp [splitAtColon, ha, ih h2]

/-- Parsing a `Key: Value` line recovers the raw key and value. -/
lemma parseHeaderLine_encode {k v : List Nat} (hk : validKey k = true) :
    parseHeaderLine (k ++ 58 :: 32 :: v) = some (k, v) := by
  have hno58 : ∀ n ∈ k, n ≠ 58 := fun n hn => (validKey_mem hk hn).2.2
  have hsplit := splitAtColon_append k (32 :: v) hno58
  simp [parseHeaderLine, hsplit, dropOneSpace]

/-- Each encoded entry adds at least its terminator to the length. -/
lemma encodeEntries_length (es : List (List Nat × List Nat)) :
    es.length ≤ (encodeEntries es).length := by
  induction es with
  | nil => simp
  | cons kv es ih =>
    obtain ⟨k, v⟩ := kv
    simp only [encodeEntries, List.length_append, List.length_cons,
      List.length]
    omega

/-- Decoding the encoded entry lines recovers the raw entries. -/
lemma decodeEntries_encode (es : List (List Nat × List Nat)) :
    ∀ fuel : Nat, validEntriesB es = true → es.length < fuel →
      decodeEntries fuel (encodeEntries es ++ [13, 10]) = some es := by
  induction es with
  | nil =>
    intro fuel _ hf
    cases fuel with
    | zero => omega
    | succ f => simp [decodeEntries, encodeEntries, takeLine]
  | cons kv es ih =>
    intro fuel hv hf
    obtain ⟨k, v⟩ := kv
    cases fuel with
    | zero => omega
    | succ f =>
      have hkv : (validKey k && validValue v) = true ∧ validEntriesB es = true := by
        unfold validEntriesB at hv ⊢
        simpa using hv
      have hk : validKey k = true := by
        have := hkv.1
        simp at this
        exact this.1
      have hvv : validValue v = true := by
        have := hkv.1
        simp at this
        exact this.2
      have heq : encodeEntries ((k, v) :: es) ++ [13, 10]
          = (k ++ 58 :: 32 :: v) ++ 13 :: 10 :: (encodeEntries es ++ [13, 10]) := by
        simp [encodeEntries]
      have htake : takeLine (encodeEntries ((k, v) :: es) ++ [13, 10])
          = some (k ++ 58 :: 32 :: v, encodeEntries es ++ [13, 10]) := by
        rw [heq, takeLine_append _ _ (line_no13 hk hvv)]
      have hparse := parseHeaderLine_encode (v := v) hk
      have hrec := ih f hkv.2 (by simp at hf; omega)
      cases k with
      | nil =>
        simp only [List.nil_append] at htake hparse
        simp [decodeEntries, htake, hparse, hrec]
      | cons a k2 =>
        simp only [List.cons_append] at htake hparse
        simp [decodeEntries, htake, hparse, hrec]

/-- Rebuilding validated entries canonicalizes every key and keeps order. -/
lemma buildGo_spec (es : List (List Nat × List Nat)) :
    ∀ acc : List (List Nat × List Nat), validEntriesB es = true →
      buildGo acc es
        = some ⟨acc ++ es.map (fun e => (canonicalMIMEHeaderKey e.1, e.2))⟩ := by
  induction es with
  | nil => intro acc _; simp [buildGo]
  | cons kv es ih =>
    intro acc hv
    obtain ⟨k, v⟩ := kv
    have hkv : (validKey k && validValue v) = true ∧ validEntriesB es = true := by
      unfold validEntriesB at hv ⊢
      simpa using hv
    simp [buildGo, hkv.1, ih _ hkv.2]

/-- The preamble contains no CR. -/
lemma preamble_no13 : ∀ n ∈ preambleBytes, n ≠ 13 := by decide

/-- C4: header round-trip.  For every wire-legal header map `H`, decoding
the encoding of `H` succeeds and yields exactly `H` with every key
canonicalized (ASCII title-case per hyphen segment) — and canonicalization
is what makes `foo`/`Foo` and `foo-bar`/`Foo-Bar` address the same entry:
their canonical keys coincide, so `values` answers identically for them on
every header map. -/
theorem claim_C4 (h : NatsHeaders) (hv : validHeaders h = true) :
    NatsHeaders.decode (NatsHeaders.encode h) = some (canonicalize h)
  ∧ canonicalMIMEHeaderKey [102, 111, 111]
      = canonicalMIMEHeaderKey [70, 111, 111]
  ∧ canonicalMIMEHeaderKey [102, 111, 111, 45, 98, 97, 114]
      = canonicalMIMEHeaderKey [70, 111, 111, 45, 66, 97, 114]
  ∧ (∀ hh : NatsHeaders,
      hh.values [102, 111, 111] = hh.values [70, 111, 111]) := by
  refine ⟨?_, by decide, by decide, ?_⟩
  · have htake : takeLine (NatsHeaders.encode h)
        = some (preambleBytes, encodeEntries h.entries ++ [13, 10]) := by
      unfold NatsHeaders.encode
      exact takeLine_append _ _ preamble_no13
    have hfuel : h.entries.length < (encodeEntries h.entries ++ [13, 10]).length + 1 := by
      have := encodeEntries_length h.entries
      simp only [List.length_append]
      simp
      omega
    have hdec := decodeEntries_encode h.entries
      ((encodeEntries h.entries ++ [13, 10]).length + 1) hv hfuel
    have hbuild := buildGo_spec h.entries [] hv
    simp at hdec
    unfold NatsHeaders.decode
    rw [htake]
    simp [hdec, hbuild, canonicalize]
  · intro hh
    unfold NatsHeaders.values
    rw [show canonicalMIMEHeaderKey [102, 111, 111]
          = canonicalMIMEHeaderKey [70, 111, 111] from by decide]

/-- Witness for C4: a concrete two-entry map (`foo: bar`, `x-trace: 7`)
with a non-canonical key round-trips to its canonical image. -/
theorem claim_C4_witness :
    validHeaders ⟨[([102, 111, 111], [98, 97, 114]),
                   ([120, 45, 84, 82, 65, 67, 69], [55])]⟩ = true
    ∧ NatsHeaders.decode (NatsHeaders.encode
        ⟨[([102, 111, 111], [98, 97, 114]),
          ([120, 45, 84, 82, 65, 67, 69], [55])]⟩)
      = some (canonicalize
          ⟨[([102, 111, 111], [98, 97, 114]),
            ([120, 45, 84, 82, 65, 67, 69], [55])]⟩) :=
  ⟨by decide,
   (claim_C4 ⟨[([102, 111, 111], [98, 97, 114]),
               ([120, 45, 84, 82, 65, 67, 69], [55])]⟩ (by decide)).1⟩

/-- C5: `set` with a key containing `:` (58), whitespace (32 or the tab and
control range below it), or a control byte (below 32, or DEL 127) fails with
`BAD_HEADER`, as does a value containing CR (13) or LF (10); for every
wire-legal key/value pair `set` succeeds. -/
theorem claim_C5 :
    (∀ (h : NatsHeaders) (k v : List Nat),
        (∃ n ∈ k, validKeyByte n = false) →
        h.set k v = .error .BAD_HEADER)
  ∧ (∀ (h : NatsHeaders) (k v : List Nat),
        (∃ n ∈ v, n = 13 ∨ n = 10) →
        h.set k v = .error .BAD_HEADER)
  ∧ (∀ (h : NatsHeaders) (k v : List Nat),
        validKey k = true → validValue v = true →
        ∃ h2, h.set k v = .ok h2)
  ∧ (validKeyByte 58 = false ∧ validKeyByte 32 = false
      ∧ validKeyByte 9 = false ∧ validKeyByte 127 = false
      ∧ ∀ n, n < 32 → validKeyByte n = false) := by
  refine ⟨?_, ?_, ?_, by decide, by decide, by decide, by decide, ?_⟩
  · intro h k v hbad
    obtain ⟨n, hn, hnb⟩ := hbad
    have hk : validKey k = false := by
      unfold validKey
      rw [List.all_eq_false]
      exact ⟨n, hn, by simp [hnb]⟩
    simp [NatsHeaders.set, hk]
  · intro h k v hbad
    obtain ⟨n, hn, hnb⟩ := hbad
    have hvv : validValue v = false := by
      unfold validValue
      rw [List.all_eq_false]
      refine ⟨n, hn, ?_⟩
      rcases hnb with rfl | rfl <;> simp
    simp [NatsHeaders.set, hvv]
  · intro h k v hk hvv
    refine ⟨⟨(h.entries.filter
        (fun e => ! (decide (e.1 = canonicalMIMEHeaderKey k))))
        ++ [(canonicalMIMEHeaderKey k, v)]⟩, ?_⟩
    simp [NatsHeaders.set, hk, hvv]
  · intro n hn
    unfold validKeyByte
    simp
    omega

/-- Witness for C5: the test's inputs — key `X:bad` and the DEL byte fail,
value `\n` fails, and a legal pair succeeds. -/
theorem claim_C5_witness :
    (⟨[]⟩ : NatsHeaders).set [88, 58, 98, 97, 100] [97, 97, 97]
        = .error .BAD_HEADER
    ∧ (⟨[]⟩ : NatsHeaders).set [127] [97, 97, 97] = .error .BAD_HEADER
    ∧ (⟨[]⟩ : NatsHeaders).set [97] [10] = .error .BAD_HEADER
    ∧ ∃ h2, (⟨[]⟩ : NatsHeaders).set [97] [98] = .ok h2 :=
  ⟨claim_C5.1 ⟨[]⟩ [88, 58, 98, 97, 100] [97, 97, 97]
      ⟨58, by decide, by decide⟩,
   claim_C5.1 ⟨[]⟩ [127] [97, 97, 97] ⟨127, by decide, by decide⟩,
   claim_C5.2.1 ⟨[]⟩ [97] [10] ⟨10, by decide, Or.inr rfl⟩,
   claim_C5.2.2.1 ⟨[]⟩ [97] [98] (by decide) (by decide)⟩

end NatsDeno
